import Mathlib

/-
Verification of the pdfannots core (src/pdfannots/__init__.py) against its
natural-language specification.

The Python module `pdfannots/__init__.py` is embedded shallowly below:

* `_get_outlines` / `_resolve_dest`  → `getOutlines` (name resolution through
  the PDF-object layer is out of scope per the spec, so a destination name is
  represented by its already-resolved `Dest` record);
* `_mkannotation`                    → `mkAnnot`;
* `_RectExtractor`                   → the `ExtState` step functions and the
  `renderL` interpreter over the layout-item tree;
* `process_file`                     → `processFile`.

The repository's `pdfannots/types.py` and `pdfannots/utils.py` are imported by
the module but are not part of the provided sources; the entities they define
(`Box` geometry, `Pos`, `Annotation.capture`, `Outline.resolve`, ordering) are
modelled from the specification, each marked by a doc comment starting with
"Modelled from the spec:".  Python exceptions are represented with `Except`:
a raised exception is `Except.error` carrying the exception's name.
-/

namespace PdfAnnots

/-- Modelled from the spec: a `Box` from the missing `types.py` — an
axis-aligned rectangle in page space (§3).  Quadrilateral regions are kept via
the "simplified bounding test for axis-aligned quads" that §4.1 sanctions, so
every region is represented by its bounding rectangle.  Coordinates are
integers (the claims under verification do not involve fractional geometry). -/
structure Box where
  x0 : Int
  y0 : Int
  x1 : Int
  y1 : Int
deriving DecidableEq, Repr

/-- Modelled from the spec: `Box.hit_item` from the missing `types.py` — the
center-point containment test of §4.1: the target component's bounding-box
center must lie within the rectangle.  The center is compared via doubled
coordinates to stay in integer arithmetic. -/
def Box.hitItem (b : Box) (target : Box) : Bool :=
  decide (2 * b.x0 ≤ target.x0 + target.x1 ∧ target.x0 + target.x1 ≤ 2 * b.x1 ∧
          2 * b.y0 ≤ target.y0 + target.y1 ∧ target.y0 + target.y1 ≤ 2 * b.y1)

/-- Modelled from the spec: the `Pos` value from the missing `types.py` (§3):
page index, an intra-page sequence number that is `none` while unresolved, and
sub-line tiebreak coordinates. -/
structure Pos where
  pageIdx : Nat
  seq : Option Nat
  x : Int
  y : Int
deriving DecidableEq, Repr

/-- Modelled from the spec: `Pos.update_pageseq` from the missing `types.py`
(§4.2) — the sequence number is "fixed to the sequence number in effect at
first contact, not the final one", i.e. the stamp writes only while the
sequence component is still unresolved. -/
def Pos.updatePageseq (p : Pos) (pageseq : Nat) : Pos :=
  match p.seq with
  | none => { p with seq := some pageseq }
  | some _ => p

/-- Modelled from the spec: the `Annotation` entity from the missing
`types.py` (§3): identity fields, a `BoxCollection`, the accumulated captured
text, and the lazily assigned start `Pos`. -/
structure Ann where
  subtype : String
  author : Option String
  created : Option String
  contents : Option String
  boxes : List Box
  text : String
  startpos : Option Pos
deriving DecidableEq, Repr

/-- Modelled from the spec: `Annotation.capture` from the missing `types.py`
(§3) — the accumulated captured text is an "append-only string builder". -/
def Ann.capture (a : Ann) (t : String) : Ann :=
  { a with text := a.text ++ t }

/-- An outline's page reference: `_get_outlines` accepts an integer page
number or a `PDFObjRef`; anything else is the unsupported case. -/
inductive PageRef where
  | byPageno (n : Int)
  | byObjid (objid : Nat)
  | other
deriving DecidableEq, Repr

/-- The `Outline` entity (constructed by `_get_outlines` in the source;
the record layout is from the missing `types.py`, modelled from the spec §3:
title, page reference, target point, and a `Pos` once resolved). -/
structure Outline where
  title : String
  pageref : PageRef
  targetx : Int
  targety : Int
  pos : Option Pos
deriving DecidableEq, Repr

/-- Modelled from the spec: `Outline.resolve` from the missing `types.py`
(§3) — resolving an outline against the page it references installs a `Pos`
on that page, at the outline's target point, with the sequence component still
unresolved. -/
def Outline.resolve (o : Outline) (pageno : Nat) : Outline :=
  { o with pos := some { pageIdx := pageno, seq := none, x := o.targetx, y := o.targety } }

/-- A resolved destination array `[page, displayMode, x, y, ...]` as consumed
by `_get_outlines` after `_resolve_dest`; name-to-destination resolution
happens in the excluded PDF-object layer, so the model starts from the
resolved record. -/
structure Dest where
  pageref : PageRef
  mode : String
  x : Int
  y : Int
deriving DecidableEq, Repr

/-- A resolved action dictionary, exposing its `S` subtype name and optional
`D` destination. -/
structure ActionRec where
  s : String
  d : Option Dest
deriving DecidableEq, Repr

/-- One raw item of `doc.get_outlines()`: title, optional destination,
optional action reference. -/
structure RawOutlineItem where
  title : String
  destname : Option Dest
  action : Option ActionRec
deriving DecidableEq, Repr

/-- The destination used for a raw outline item (`_get_outlines`, lines
83-91): a present destination wins; otherwise a `GoTo` action's `D` entry is
used; otherwise there is no destination. -/
def resolvedDest (it : RawOutlineItem) : Option Dest :=
  match it.destname, it.action with
  | none, some act => if act.s = "GoTo" then act.d else none
  | none, none => none
  | some d, _ => some d

/-- The outlines and warnings contributed by one raw outline item
(`_get_outlines`, lines 89-100): only an `XYZ` destination whose page
reference is an integer or an object reference yields an `Outline`; an `XYZ`
destination with any other page reference logs a warning; everything else is
skipped silently. -/
def getOutlineOne (it : RawOutlineItem) : List Outline × List String :=
  match resolvedDest it with
  | none => ([], [])
  | some dest =>
    if dest.mode = "XYZ" then
      match dest.pageref with
      | PageRef.byPageno n =>
        ([⟨it.title, PageRef.byPageno n, dest.x, dest.y, none⟩], [])
      | PageRef.byObjid objid =>
        ([⟨it.title, PageRef.byObjid objid, dest.x, dest.y, none⟩], [])
      | PageRef.other => ([], ["Unsupported pageref in outline"])
    else ([], [])

/-- `_get_outlines` (lines 81-100): the outlines yielded, paired with the
warnings logged while walking the raw outline items. -/
def getOutlines : List RawOutlineItem → List Outline × List String
  | [] => ([], [])
  | it :: rest =>
    ((getOutlineOne it).1 ++ (getOutlines rest).1,
     (getOutlineOne it).2 ++ (getOutlines rest).2)

/-- A raw annotation dictionary as read by `_mkannotation`: the `Subtype`,
`Contents`, `QuadPoints`, `Rect`, `T`, and date entries (absent keys are
`none`). -/
structure RawAnnot where
  subtype : Option String
  contents : Option String
  quadpoints : Option (List Int)
  rect : Option Box
  author : Option String
  creationDate : Option String
  modDate : Option String
  mDate : Option String
deriving DecidableEq, Repr

/-- `ANNOT_SUBTYPES` (line 31): the supported annotation subtypes. -/
def ANNOT_SUBTYPES : List String :=
  ["Text", "Highlight", "Squiggly", "StrikeOut", "Underline"]

/-- Modelled from the spec: `BoxCollection` construction from `QuadPoints`
from the missing `types.py` — each group of eight numbers is one
quadrilateral (§3), kept as its bounding rectangle per the simplified
axis-aligned test of §4.1. -/
def quadBoxes : List Int → List Box
  | x0 :: y0 :: x1 :: y1 :: x2 :: y2 :: x3 :: y3 :: rest =>
    ⟨min (min x0 x1) (min x2 x3), min (min y0 y1) (min y2 y3),
     max (max x0 x1) (max x2 x3), max (max y0 y1) (max y2 y3)⟩ :: quadBoxes rest
  | _ => []

/-- Modelled from the spec: an annotation's `BoxCollection` is built from its
`QuadPoints` when present, else from its `Rect`, else it is empty (§3; the
construction lives in the missing `types.py`). -/
def boxesOf (pa : RawAnnot) : List Box :=
  match pa.quadpoints with
  | some qs => quadBoxes qs
  | none =>
    match pa.rect with
    | some r => [r]
    | none => []

/-- `_mkannotation` (lines 35-68).  A present but unsupported subtype returns
no annotation (lines 40-42).  A missing subtype passes the guard but then
crashes at `subtype.name` on line 67 (`None` has no attribute `name`); the
raised exception is modelled as `Except.error "AttributeError"`.  The creation
date takes the first present key among `CreationDate`, `ModDate`, `M`
(lines 56-61); text decoding by the excluded `utils`/pdfminer helpers is the
identity in the model. -/
def mkAnnot (pa : RawAnnot) : Except String (Option Ann) :=
  match pa.subtype with
  | some s =>
    if s ∈ ANNOT_SUBTYPES then
      Except.ok (some
        ⟨s, pa.author, (pa.creationDate <|> pa.modDate <|> pa.mDate),
         pa.contents, boxesOf pa, "", none⟩)
    else Except.ok none
  | none => Except.error "AttributeError"

mutual

/-- One pdfminer layout item as dispatched on by `_RectExtractor.render`
(lines 163-194): an `LTChar` with its bounding box and text, an `LTAnno`
whitespace primitive with text only, an `LTTextLine`, an `LTTextBox` with its
aggregate bounding box, and any other `LTContainer` (`LTPage`, `LTFigure`,
...). -/
inductive LTItem where
  | char (box : Box) (text : String)
  | anno (text : String)
  | textline (children : LTList)
  | textbox (box : Box) (children : LTList)
  | container (children : LTList)

/-- A list of layout items, as a mutual inductive so that the render
interpreter is structurally recursive (and hence kernel-reducible on the
concrete streams used below). -/
inductive LTList where
  | nil
  | cons (head : LTItem) (tail : LTList)

end

/-- Convert an ordinary list of layout items into an `LTList`. -/
def ltlist : List LTItem → LTList
  | [] => LTList.nil
  | i :: is => LTList.cons i (ltlist is)

/-- The mutable state of `_RectExtractor` while one page renders: the page's
running line-sequence counter, the page's annotations and resolved outlines
(`self.page.annots` / `self.page.outlines`; list position models Python
object identity), and the transient `_lasthit` / `_curline` sets of
annotation indices. -/
structure ExtState where
  pageIdx : Nat
  pageseq : Nat
  annots : List Ann
  outls : List Outline
  lasthit : List Nat
  curline : List Nat
deriving DecidableEq, Repr

/-- The hit predicate of `_RectExtractor.testboxes` (lines 146-148) for one
annotation: `a.boxes and any({b.hit_item(item) for b in a.boxes})` — an empty
`BoxCollection` is falsy, so it never matches. -/
def annMatches (a : Ann) (target : Box) : Bool :=
  (!a.boxes.isEmpty) && a.boxes.any (fun b => b.hitItem target)

/-- The indices of the page's annotations hit by a target region
(`_RectExtractor.testboxes`, lines 144-148). -/
def hitIndices (annots : List Ann) (target : Box) : List Nat :=
  (List.range annots.length).filter fun i =>
    match annots[i]? with
    | some a => annMatches a target
    | none => false

/-- `_RectExtractor.testboxes` (lines 144-151): record the hit set as
`_lasthit` and union it into `_curline`. -/
def testboxesSt (s : ExtState) (target : Box) : ExtState :=
  { s with lasthit := hitIndices s.annots target,
           curline := s.curline ++
             (hitIndices s.annots target).filter (fun i => decide (i ∉ s.curline)) }

/-- Apply a position-dependent function to every element of a list, starting
from index `n` (helper for the indexed maps below). -/
def mapIdxGo (f : Nat → Ann → Ann) (n : Nat) : List Ann → List Ann
  | [] => []
  | a :: as => f n a :: mapIdxGo f (n + 1) as

/-- Apply a position-dependent function to every element of a list. -/
def mapIdxAnn (f : Nat → Ann → Ann) (l : List Ann) : List Ann :=
  mapIdxGo f 0 l

/-- `for a in idxs: a.capture(t)` — broadcast a text to the annotations at
the given indices (used for the inter-word whitespace broadcast of `render`,
line 193-194). -/
def captureTo (s : ExtState) (idxs : List Nat) (t : String) : ExtState :=
  { s with annots := mapIdxAnn (fun i a => if i ∈ idxs then a.capture t else a) s.annots }

/-- The character-hit capture of `render` (lines 181-183): every annotation
in the hit set captures the character's text.  Modelled from the spec for the
missing `types.py` part: a matched annotation with no start `Pos` yet is
lazily assigned a pending one (sequence unresolved, tiebreak coordinates the
character box's top-left) per §3 and §4.3. -/
def captureChar (s : ExtState) (idxs : List Nat) (t : String) (b : Box) : ExtState :=
  { s with annots := mapIdxAnn (fun i a =>
      if i ∈ idxs then
        match (a.capture t).startpos with
        | none => { a.capture t with startpos := some ⟨s.pageIdx, none, b.x0, b.y1⟩ }
        | some _ => a.capture t
      else a) s.annots }

/-- `_RectExtractor.capture_newline` (lines 156-159): broadcast one newline
to every annotation in `_curline`, then clear `_curline`. -/
def captureNewlineSt (s : ExtState) : ExtState :=
  { s with annots := mapIdxAnn (fun i a => if i ∈ s.curline then a.capture "\n" else a) s.annots,
           curline := [] }

/-- `_RectExtractor.update_pageseq` (lines 132-142): increment the page's
sequence counter, then stamp the new value onto the start `Pos` of every
annotation whose `startpos` is set, and onto every outline's `Pos`
(delegating to `Pos.updatePageseq`, which writes only while unresolved). -/
def updatePageseqSt (s : ExtState) : ExtState :=
  { s with pageseq := s.pageseq + 1,
           annots := s.annots.map (fun a =>
             match a.startpos with
             | some p => { a with startpos := some (p.updatePageseq (s.pageseq + 1)) }
             | none => a),
           outls := s.outls.map (fun o =>
             match o.pos with
             | some p => { o with pos := some (p.updatePageseq (s.pageseq + 1)) }
             | none => o) }

/-- `_RectExtractor.render` (lines 163-194), folded over a list of layout
items in layout order.  An `LTTextLine` first bumps the sequence counter and
then renders its children; an `LTTextBox` renders its children, then runs one
final hit-test against its aggregate box and flushes the pending line; any
other container only recurses; an `LTChar` hit-captures; an `LTAnno` is the
whitespace heuristic (newline → line flush, otherwise broadcast to
`_lasthit`). -/
def renderL (s : ExtState) : LTList → ExtState
  | LTList.nil => s
  | LTList.cons (LTItem.char b t) rest =>
    renderL (captureChar (testboxesSt s b) (testboxesSt s b).lasthit t b) rest
  | LTList.cons (LTItem.anno t) rest =>
    renderL (if t = "\n" then captureNewlineSt s else captureTo s s.lasthit t) rest
  | LTList.cons (LTItem.textline cs) rest =>
    renderL (renderL (updatePageseqSt s) cs) rest
  | LTList.cons (LTItem.textbox b cs) rest =>
    renderL (captureNewlineSt (testboxesSt (renderL s cs) b)) rest
  | LTList.cons (LTItem.container cs) rest =>
    renderL (renderL s cs) rest

/-- `_RectExtractor.render` on a single layout item. -/
def render1 (s : ExtState) (item : LTItem) : ExtState :=
  renderL s (LTList.cons item LTList.nil)

/-- `_RectExtractor.receive_layout` (lines 127-130): reset `_lasthit` and
`_curline`, then render the page's layout tree. -/
def receiveLayout (s : ExtState) (ltpage : LTList) : ExtState :=
  renderL { s with lasthit := [], curline := [] } ltpage

/-- The extractor state at the start of a page's render: `start_page`
(lines 122-124) resets the sequence counter to zero, and the page carries the
annotations and resolved outlines attached by `process_file`. -/
def initPageState (pageIdx : Nat) (annots : List Ann) (outls : List Outline) : ExtState :=
  ⟨pageIdx, 0, annots, outls, [], []⟩

/-- One entry of a page's `Annots` array as consumed by `process_file`
(lines 251-257): either an indirect reference that resolves to a raw
annotation dictionary, or any non-reference entry (which is logged and
skipped). -/
inductive AnnotEntry where
  | ref (pa : RawAnnot)
  | nonref
deriving DecidableEq, Repr

/-- One page of the input document: its object id, its raw annotation
entries, and the layout-item stream the external layout engine emits for it
(the children of the page's `LTPage`). -/
structure PageInput where
  pageid : Nat
  annotEntries : List AnnotEntry
  layout : LTList

/-- An input document: the raw outline items of its outline tree (empty when
the document has none) and its pages in document order. -/
structure Doc where
  outlineItems : List RawOutlineItem
  pages : List PageInput

/-- The annotation-construction loop of `process_file` (lines 251-257):
reference entries go through `_mkannotation` (whose exceptions propagate —
there is no handler around this loop), `None` results are dropped, and
non-reference entries log an "Unknown annotation" warning and are skipped. -/
def buildAnnots : List AnnotEntry → Except String (List Ann × List String)
  | [] => Except.ok ([], [])
  | AnnotEntry.ref pa :: rest => do
    let a ← mkAnnot pa
    let (as, ws) ← buildAnnots rest
    match a with
    | some ann => Except.ok (ann :: as, ws)
    | none => Except.ok (as, ws)
  | AnnotEntry.nonref :: rest => do
    let (as, ws) ← buildAnnots rest
    Except.ok (as, "Unknown annotation" :: ws)

/-- Whether an outline's page reference addresses the page with the given
page number and object id (the two pending maps of `process_file` are keyed
by page number and by object id, lines 216-228 and 245-246). -/
def refMatches (pr : PageRef) (pageno : Nat) (pageid : Nat) : Bool :=
  match pr with
  | PageRef.byPageno n => n == (pageno : Int)
  | PageRef.byObjid objid => objid == pageid
  | PageRef.other => false

/-- Popping both pending-outline maps for one page (lines 245-246): the
entries keyed by this page's object id come first, then those keyed by its
page number; everything else stays pending. -/
def popOutlines (pend : List Outline) (pageno : Nat) (pageid : Nat) :
    List Outline × List Outline :=
  (pend.filter (fun o =>
      match o.pageref with
      | PageRef.byObjid objid => objid == pageid
      | _ => false) ++
   pend.filter (fun o =>
      match o.pageref with
      | PageRef.byPageno n => n == (pageno : Int)
      | _ => false),
   pend.filter (fun o => !(refMatches o.pageref pageno pageid)))

/-- Modelled from the spec: the total order of §4.2 used by
`page.annots.sort()` / `page.outlines.sort()` (the comparison methods live in
the missing `types.py`): lexicographic on page index, then sequence number,
then vertical (top first, y decreasing) and horizontal tiebreak.  A pending
sequence component is ordered as zero so that the page-level sort is total. -/
def posLe (p q : Pos) : Bool :=
  if p.pageIdx ≠ q.pageIdx then decide (p.pageIdx < q.pageIdx)
  else if p.seq.getD 0 ≠ q.seq.getD 0 then decide (p.seq.getD 0 < q.seq.getD 0)
  else if p.y ≠ q.y then decide (q.y < p.y)
  else decide (p.x ≤ q.x)

/-- Modelled from the spec: order on optional positions — an annotation or
outline that never received a position sorts first (§3's exclusion of
unresolved items from meaningful ordering, made total for the model). -/
def optPosLe (p q : Option Pos) : Bool :=
  match p, q with
  | none, _ => true
  | some _, none => false
  | some p, some q => posLe p q

/-- Insert into a sorted list (helper for the model of Python's list sort). -/
def insertLe (le : α → α → Bool) (x : α) : List α → List α
  | [] => [x]
  | y :: ys => if le x y then x :: y :: ys else y :: insertLe le x ys

/-- Insertion sort, modelling Python's `list.sort` (no verified claim depends
on the sort beyond it permuting the page's lists). -/
def sortLe (le : α → α → Bool) : List α → List α
  | [] => []
  | x :: xs => insertLe le x (sortLe le xs)

/-- The page loop of `process_file` (lines 238-269), processing the pages
from page number `pageno` with the pending outlines `pend`: per page it pops
and resolves the outlines addressed to the page, builds the page's
annotations, renders the page through the extractor, sorts the page's lists,
and accumulates them; it returns the accumulated annotations, outlines and
warnings together with the outlines still pending after all pages. -/
def processPages (pend : List Outline) (pageno : Nat) :
    List PageInput → Except String (List Ann × List Outline × List String × List Outline)
  | [] => Except.ok ([], [], [], pend)
  | pg :: rest => do
    let popped := (popOutlines pend pageno pg.pageid).1
    let pend1 := (popOutlines pend pageno pg.pageid).2
    let (anns, ws) ← buildAnnots pg.annotEntries
    let st := receiveLayout
      (initPageState pageno anns (popped.map (fun o => o.resolve pageno))) pg.layout
    let (ra, ro, rw, pendF) ← processPages pend1 (pageno + 1) rest
    Except.ok (sortLe (fun a b => optPosLe a.startpos b.startpos) st.annots ++ ra,
               sortLe (fun a b => optPosLe a.pos b.pos) st.outls ++ ro,
               ws ++ rw, pendF)

/-- The final result of `process_file`: the document-wide annotation and
outline lists, plus the warnings logged along the way. -/
structure ProcResult where
  annots : List Ann
  outls : List Outline
  warnings : List String
deriving Repr

/-- `process_file` (lines 197-279): retrieve the outlines, run the page loop,
and finally assert that both pending-outline maps are empty (lines 276-277);
a failed assertion is the raised `AssertionError`. -/
def processFile (doc : Doc) : Except String ProcResult := do
  let (outl, w0) := getOutlines doc.outlineItems
  let (as, os, ws, pendF) ← processPages outl 0 doc.pages
  if pendF.isEmpty then
    Except.ok ⟨as, os, w0 ++ ws⟩
  else
    Except.error "AssertionError"

/-! ### Helper lemmas -/

/-- The number of text-line boundary items in a layout stream (each
`LTTextLine`, at any nesting depth, is one boundary). -/
def countLines : LTList → Nat
  | LTList.nil => 0
  | LTList.cons (LTItem.textline cs) rest => 1 + countLines cs + countLines rest
  | LTList.cons (LTItem.textbox _ cs) rest => countLines cs + countLines rest
  | LTList.cons (LTItem.container cs) rest => countLines cs + countLines rest
  | LTList.cons (LTItem.char _ _) rest => countLines rest
  | LTList.cons (LTItem.anno _) rest => countLines rest

theorem renderL_pageseq (s : ExtState) (l : LTList) :
    (renderL s l).pageseq = s.pageseq + countLines l := by
  match l with
  | LTList.nil => simp [renderL, countLines]
  | LTList.cons (LTItem.char b t) rest =>
    simp only [renderL, countLines]
    rw [renderL_pageseq _ rest]
    rfl
  | LTList.cons (LTItem.anno t) rest =>
    simp only [renderL, countLines]
    rw [renderL_pageseq _ rest]
    by_cases h : t = "\n" <;> simp [h, captureNewlineSt, captureTo]
  | LTList.cons (LTItem.textline cs) rest =>
    simp only [renderL, countLines]
    rw [renderL_pageseq _ rest, renderL_pageseq _ cs]
    simp only [updatePageseqSt]
    omega
  | LTList.cons (LTItem.textbox b cs) rest =>
    simp only [renderL, countLines]
    rw [renderL_pageseq _ rest]
    simp only [captureNewlineSt, testboxesSt]
    rw [renderL_pageseq _ cs]
    omega
  | LTList.cons (LTItem.container cs) rest =>
    simp only [renderL, countLines]
    rw [renderL_pageseq _ rest, renderL_pageseq _ cs]
    omega

theorem mapIdxGo_getElem (f : Nat → Ann → Ann) (l : List Ann) (n i : Nat) :
    (mapIdxGo f n l)[i]? = (l[i]?).map (f (n + i)) := by
  induction l generalizing n i with
  | nil => simp [mapIdxGo]
  | cons a as ih =>
    cases i with
    | zero => simp [mapIdxGo]
    | succ j =>
      have hn : n + 1 + j = n + (j + 1) := by omega
      simp only [mapIdxGo, List.getElem?_cons_succ, ih (n + 1) j, hn]

theorem mapIdxAnn_getElem (f : Nat → Ann → Ann) (l : List Ann) (i : Nat) :
    (mapIdxAnn f l)[i]? = (l[i]?).map (f i) := by
  simpa using mapIdxGo_getElem f l 0 i

theorem mem_hitIndices (annots : List Ann) (b : Box) (i : Nat) :
    i ∈ hitIndices annots b ↔ ∃ a, annots[i]? = some a ∧ annMatches a b = true := by
  simp only [hitIndices, List.mem_filter, List.mem_range]
  constructor
  · rintro ⟨hlt, hpred⟩
    cases ha : annots[i]? with
    | none => rw [ha] at hpred; exact absurd hpred (by simp)
    | some a => rw [ha] at hpred; exact ⟨a, rfl, hpred⟩
  · rintro ⟨a, ha, hm⟩
    refine ⟨?_, ?_⟩
    · exact (List.getElem?_eq_some_iff.mp ha).1
    · rw [ha]; exact hm

theorem not_mem_hitIndices_of_no_boxes (annots : List Ann) (b : Box) (i : Nat) (a : Ann)
    (ha : annots[i]? = some a) (hb : a.boxes = []) : i ∉ hitIndices annots b := by
  intro hmem
  obtain ⟨a', ha', hm⟩ := (mem_hitIndices annots b i).mp hmem
  rw [ha] at ha'
  cases ha'
  simp [annMatches, hb] at hm

/-- The invariant behind claim C4: the annotation at index `i` has an empty
box collection and text `t0`, and is in neither transient hit set. -/
def Untouched (i : Nat) (t0 : String) (s : ExtState) : Prop :=
  (∃ a, s.annots[i]? = some a ∧ a.text = t0 ∧ a.boxes = []) ∧
    i ∉ s.lasthit ∧ i ∉ s.curline

theorem untouched_testboxes {i : Nat} {t0 : String} {s : ExtState} (b : Box)
    (h : Untouched i t0 s) : Untouched i t0 (testboxesSt s b) := by
  obtain ⟨⟨a, ha, ht, hb⟩, hl, hc⟩ := h
  refine ⟨⟨a, ha, ht, hb⟩, ?_, ?_⟩
  · exact not_mem_hitIndices_of_no_boxes s.annots b i a ha hb
  · simp only [testboxesSt, List.mem_append, List.mem_filter]
    rintro (h | ⟨h, -⟩)
    · exact hc h
    · exact not_mem_hitIndices_of_no_boxes s.annots b i a ha hb h

theorem untouched_captureTo {i : Nat} {t0 : String} {s : ExtState}
    {idxs : List Nat} (t : String) (hi : i ∉ idxs)
    (h : Untouched i t0 s) : Untouched i t0 (captureTo s idxs t) := by
  obtain ⟨⟨a, ha, ht, hb⟩, hl, hc⟩ := h
  refine ⟨⟨a, ?_, ht, hb⟩, hl, hc⟩
  simp [captureTo, mapIdxAnn_getElem, ha, hi]

theorem untouched_captureChar {i : Nat} {t0 : String} {s : ExtState}
    {idxs : List Nat} (t : String) (b : Box) (hi : i ∉ idxs)
    (h : Untouched i t0 s) : Untouched i t0 (captureChar s idxs t b) := by
  obtain ⟨⟨a, ha, ht, hb⟩, hl, hc⟩ := h
  refine ⟨⟨a, ?_, ht, hb⟩, hl, hc⟩
  simp [captureChar, mapIdxAnn_getElem, ha, hi]

theorem untouched_captureNewline {i : Nat} {t0 : String} {s : ExtState}
    (h : Untouched i t0 s) : Untouched i t0 (captureNewlineSt s) := by
  obtain ⟨⟨a, ha, ht, hb⟩, hl, hc⟩ := h
  refine ⟨⟨a, ?_, ht, hb⟩, hl, ?_⟩
  · simp [captureNewlineSt, mapIdxAnn_getElem, ha, hc]
  · simp [captureNewlineSt]

theorem untouched_updatePageseq {i : Nat} {t0 : String} {s : ExtState}
    (h : Untouched i t0 s) : Untouched i t0 (updatePageseqSt s) := by
  obtain ⟨⟨a, ha, ht, hb⟩, hl, hc⟩ := h
  refine ⟨⟨?_, ?_⟩, hl, hc⟩
  case _ => exact
    match a.startpos with
    | some p => { a with startpos := some (p.updatePageseq (s.pageseq + 1)) }
    | none => a
  refine ⟨?_, ?_, ?_⟩
  · simp only [updatePageseqSt, List.getElem?_map, ha]
    rfl
  · cases a.startpos <;> simp [ht]
  · cases a.startpos <;> simp [hb]

theorem untouched_renderL {i : Nat} {t0 : String} (s : ExtState) (l : LTList)
    (h : Untouched i t0 s) : Untouched i t0 (renderL s l) := by
  match l with
  | LTList.nil => exact h
  | LTList.cons (LTItem.char b t) rest =>
    exact untouched_renderL _ rest
      (untouched_captureChar t b ((untouched_testboxes b h).2.1) (untouched_testboxes b h))
  | LTList.cons (LTItem.anno t) rest =>
    refine untouched_renderL _ rest ?_
    by_cases hnl : t = "\n"
    · simp only [renderL, hnl, if_pos rfl]
      exact untouched_captureNewline h
    · simp only [renderL, if_neg hnl]
      exact untouched_captureTo t h.2.1 h
  | LTList.cons (LTItem.textline cs) rest =>
    exact untouched_renderL _ rest
      (untouched_renderL _ cs (untouched_updatePageseq h))
  | LTList.cons (LTItem.textbox b cs) rest =>
    exact untouched_renderL _ rest
      (untouched_captureNewline (untouched_testboxes b (untouched_renderL _ cs h)))
  | LTList.cons (LTItem.container cs) rest =>
    exact untouched_renderL _ rest (untouched_renderL _ cs h)

/-- The invariant behind claim C3's persistence part: the annotation at index
`i` has a start `Pos` whose sequence number is resolved to `v`. -/
def SeqFixed (i v : Nat) (s : ExtState) : Prop :=
  ∃ a p, s.annots[i]? = some a ∧ a.startpos = some p ∧ p.seq = some v

theorem seqFixed_testboxes {i v : Nat} {s : ExtState} (b : Box)
    (h : SeqFixed i v s) : SeqFixed i v (testboxesSt s b) := h

theorem seqFixed_captureTo {i v : Nat} {s : ExtState} (idxs : List Nat) (t : String)
    (h : SeqFixed i v s) : SeqFixed i v (captureTo s idxs t) := by
  obtain ⟨a, p, ha, hp, hv⟩ := h
  by_cases hi : i ∈ idxs
  · exact ⟨a.capture t, p, by simp [captureTo, mapIdxAnn_getElem, ha, hi], by simp [Ann.capture, hp], hv⟩
  · exact ⟨a, p, by simp [captureTo, mapIdxAnn_getElem, ha, hi], hp, hv⟩

theorem seqFixed_captureChar {i v : Nat} {s : ExtState} (idxs : List Nat) (t : String) (b : Box)
    (h : SeqFixed i v s) : SeqFixed i v (captureChar s idxs t b) := by
  obtain ⟨a, p, ha, hp, hv⟩ := h
  have hcp : (a.capture t).startpos = some p := by simp [Ann.capture, hp]
  by_cases hi : i ∈ idxs
  · refine ⟨a.capture t, p, ?_, hcp, hv⟩
    simp [captureChar, mapIdxAnn_getElem, ha, hi, hcp]
  · exact ⟨a, p, by simp [captureChar, mapIdxAnn_getElem, ha, hi], hp, hv⟩

theorem seqFixed_captureNewline {i v : Nat} {s : ExtState}
    (h : SeqFixed i v s) : SeqFixed i v (captureNewlineSt s) := by
  obtain ⟨a, p, ha, hp, hv⟩ := h
  by_cases hi : i ∈ s.curline
  · exact ⟨a.capture "\n", p, by simp [captureNewlineSt, mapIdxAnn_getElem, ha, hi], by simp [Ann.capture, hp], hv⟩
  · exact ⟨a, p, by simp [captureNewlineSt, mapIdxAnn_getElem, ha, hi], hp, hv⟩

theorem seqFixed_updatePageseq {i v : Nat} {s : ExtState}
    (h : SeqFixed i v s) : SeqFixed i v (updatePageseqSt s) := by
  obtain ⟨a, p, ha, hp, hv⟩ := h
  refine ⟨{ a with startpos := some (p.updatePageseq (s.pageseq + 1)) }, p, ?_, ?_, hv⟩
  · simp [updatePageseqSt, List.getElem?_map, ha, hp]
  · simp [Pos.updatePageseq, hv]

theorem seqFixed_renderL {i v : Nat} (s : ExtState) (l : LTList)
    (h : SeqFixed i v s) : SeqFixed i v (renderL s l) := by
  match l with
  | LTList.nil => exact h
  | LTList.cons (LTItem.char b t) rest =>
    exact seqFixed_renderL _ rest (seqFixed_captureChar _ t b (seqFixed_testboxes b h))
  | LTList.cons (LTItem.anno t) rest =>
    refine seqFixed_renderL _ rest ?_
    by_cases hnl : t = "\n"
    · simp only [renderL, hnl, if_pos rfl]
      exact seqFixed_captureNewline h
    · simp only [renderL, if_neg hnl]
      exact seqFixed_captureTo _ t h
  | LTList.cons (LTItem.textline cs) rest =>
    exact seqFixed_renderL _ rest (seqFixed_renderL _ cs (seqFixed_updatePageseq h))
  | LTList.cons (LTItem.textbox b cs) rest =>
    exact seqFixed_renderL _ rest
      (seqFixed_captureNewline (seqFixed_testboxes b (seqFixed_renderL _ cs h)))
  | LTList.cons (LTItem.container cs) rest =>
    exact seqFixed_renderL _ rest (seqFixed_renderL _ cs h)

theorem processPages_dangling (pages : List PageInput) (pend : List Outline) (n : Nat)
    (o : Outline) (ho : o ∈ pend)
    (hnm : ∀ i pg, pages[i]? = some pg → refMatches o.pageref (n + i) pg.pageid = false) :
    ∀ res, processPages pend n pages = Except.ok res → o ∈ res.2.2.2 := by
  induction pages generalizing pend n with
  | nil =>
    intro res hres
    simp only [processPages, Except.ok.injEq] at hres
    rw [← hres]
    exact ho
  | cons pg rest ih =>
    intro res hres
    have hpend1 : o ∈ (popOutlines pend n pg.pageid).2 := by
      simp only [popOutlines, List.mem_filter]
      refine ⟨ho, ?_⟩
      have := hnm 0 pg (by simp)
      simp only [Nat.add_zero] at this
      simp [this]
    simp only [processPages, bind, Except.bind] at hres
    cases hba : buildAnnots pg.annotEntries with
    | error e => rw [hba] at hres; exact absurd hres (by simp)
    | ok p =>
      rw [hba] at hres
      obtain ⟨anns, ws⟩ := p
      simp only at hres
      cases hpp : processPages (popOutlines pend n pg.pageid).2 (n + 1) rest with
      | error e => rw [hpp] at hres; exact absurd hres (by simp)
      | ok res' =>
        rw [hpp] at hres
        obtain ⟨ra, ro, rw', pendF⟩ := res'
        simp only [Except.ok.injEq] at hres
        have hmem := ih (popOutlines pend n pg.pageid).2 (n + 1) hpend1
          (fun i pg' hpg' => by
            have := hnm (i + 1) pg' (by simpa using hpg')
            simpa [Nat.add_assoc, Nat.add_comm 1 i] using this)
          (ra, ro, rw', pendF) hpp
        rw [← hres]
        exact hmem

/-! ### Claim C1 -/

/-- A document with a single outline entry addressed to page number 5, while
only one page (page number 0, object id 10) exists. -/
def docC1 : Doc :=
  ⟨[⟨"Chapter 1", some ⟨PageRef.byPageno 5, "XYZ", 10, 20⟩, none⟩],
   [⟨10, [], LTList.nil⟩]⟩

/-- The outline entry of `docC1` as produced by `getOutlines`. -/
def oC1 : Outline := ⟨"Chapter 1", PageRef.byPageno 5, 10, 20, none⟩

/-- Claim C1, counterexample: on a document whose only outline entry
references page number 5 while only page 0 exists, `process_file` does not
complete normally — the final assertion that every outline was resolved
(lines 276-277) fails, raising `AssertionError`.  This refutes the claim
that such an entry "is dropped without raising an exception: process_file
completes normally". -/
theorem c1_dangling_outline_raises_cex :
    processFile docC1 = Except.error "AssertionError" := rfl

/-- Claim C1, amended: an outline entry whose referenced page (by page index
or object id) never appears among the processed pages is never resolved into
the output, but `process_file` does not complete normally: the trailing
assertion that both pending-outline maps are empty fails, so no result lists
are returned at all (`processFile` never yields `Except.ok`). -/
theorem c1_dangling_outline_never_ok (doc : Doc) (o : Outline)
    (ho : o ∈ (getOutlines doc.outlineItems).1)
    (hnm : ∀ i pg, doc.pages[i]? = some pg → refMatches o.pageref i pg.pageid = false) :
    ∀ res, processFile doc ≠ Except.ok res := by
  intro res hres
  simp only [processFile, bind, Except.bind] at hres
  cases hpp : processPages (getOutlines doc.outlineItems).1 0 doc.pages with
  | error e => rw [hpp] at hres; exact absurd hres (by simp)
  | ok quad =>
    rw [hpp] at hres
    have hmem := processPages_dangling doc.pages (getOutlines doc.outlineItems).1 0 o ho
      (fun i pg hpg => by simpa using hnm i pg hpg) quad hpp
    obtain ⟨as, os, ws, pendF⟩ := quad
    simp only at hres hmem
    have hne : pendF.isEmpty = false := by
      cases pendF with
      | nil => cases hmem
      | cons x xs => rfl
    rw [hne] at hres
    exact absurd hres (by simp)

/-- Witness for the amended claim C1, at the concrete document `docC1`. -/
theorem c1_dangling_outline_never_ok_wit :
    processFile docC1 ≠ Except.ok ⟨[], [], []⟩ :=
  c1_dangling_outline_never_ok docC1 oC1 (by decide)
    (fun i pg h => by
      cases i with
      | zero =>
        have hpg : pg = (⟨10, [], LTList.nil⟩ : PageInput) := by
          simpa [docC1] using h.symm
        rw [hpg]
        rfl
      | succ k => simp [docC1] at h)
    ⟨[], [], []⟩

/-! ### Claim C5 -/

/-- A raw annotation dictionary with the unsupported subtype `FreeText`. -/
def rawFreeText : RawAnnot :=
  ⟨some "FreeText", some "a note", none, some ⟨0, 0, 100, 10⟩, none, none, none, none⟩

/-- A document whose only page carries a single `FreeText` annotation whose
rectangle covers the page's one character. -/
def docC5 : Doc :=
  ⟨[], [⟨1, [AnnotEntry.ref rawFreeText], ltlist [LTItem.char ⟨0, 0, 10, 10⟩ "x"]⟩]⟩

/-- Claim C5: a raw annotation whose subtype is present but not in
`ANNOT_SUBTYPES` produces no `Annotation` entity (`_mkannotation` returns
`None`, lines 40-42); consequently, on a concrete document whose only
annotation is a `FreeText` record covering the page's text, the record never
participates in binding and the returned annotation list is empty. -/
theorem c5_unsupported_subtype_dropped :
    (∀ (pa : RawAnnot) (s : String), pa.subtype = some s → s ∉ ANNOT_SUBTYPES →
      mkAnnot pa = Except.ok none) ∧
    processFile docC5 = Except.ok ⟨[], [], []⟩ := by
  constructor
  · intro pa s hs hns
    simp [mkAnnot, hs, hns]
  · rfl

/-- Witness for claim C5 at the concrete `FreeText` record. -/
theorem c5_unsupported_subtype_dropped_wit :
    mkAnnot rawFreeText = Except.ok none :=
  c5_unsupported_subtype_dropped.1 rawFreeText "FreeText" rfl (by decide)

/-! ### Claim C7 -/

/-- A raw annotation dictionary with no `Subtype` key at all. -/
def rawNoSubtype : RawAnnot :=
  ⟨none, some "hello", none, some ⟨0, 0, 10, 10⟩, none, none, none, none⟩

/-- A document whose only page carries a single annotation record lacking a
`Subtype` key. -/
def docC7 : Doc :=
  ⟨[], [⟨1, [AnnotEntry.ref rawNoSubtype], LTList.nil⟩]⟩

/-- Claim C7, the code-bug evidence: a single annotation record with a
missing subtype is not contained — the guard on line 41 deliberately lets
`Subtype = None` through, but line 67 then evaluates `subtype.name`, raising
`AttributeError`, and `process_file` has no handler around the annotation
loop (lines 251-257), so the whole run aborts instead of skipping the one
record and continuing. -/
theorem c7_missing_subtype_aborts :
    mkAnnot rawNoSubtype = Except.error "AttributeError" ∧
    processFile docC7 = Except.error "AttributeError" :=
  ⟨rfl, rfl⟩

/-! ### Claim C8 -/

/-- A raw outline item whose resolved destination uses the `FitH` display
mode (not `XYZ`). -/
def itemFitH : RawOutlineItem :=
  ⟨"Section", some ⟨PageRef.byPageno 0, "FitH", 0, 0⟩, none⟩

/-- Claim C8, counterexample: a destination with display mode `FitH` is
ignored, but no warning is emitted for it — `_get_outlines` has no `else`
branch for the `dest[1] is XYZ` test (line 94), so the warning list stays
empty.  This refutes the claim that "a warning is emitted" for every
non-`XYZ` display mode. -/
theorem c8_nonxyz_silent_cex :
    getOutlines [itemFitH] = ([], []) := rfl

/-- Claim C8, amended: only destinations whose display mode is `XYZ` with an
explicit page reference (an integer page number or an indirect object
reference) yield an `Outline` entry.  A destination with any other display
mode is ignored silently, with no warning; the only warning `_get_outlines`
emits is for an `XYZ` destination whose page reference is neither an integer
nor an object reference. -/
theorem c8_outline_xyz_filter :
    (∀ (it : RawOutlineItem) (dest : Dest), resolvedDest it = some dest →
      dest.mode ≠ "XYZ" → getOutlineOne it = ([], [])) ∧
    (∀ (it : RawOutlineItem) (dest : Dest) (n : Int), resolvedDest it = some dest →
      dest.mode = "XYZ" → dest.pageref = PageRef.byPageno n →
      getOutlineOne it = ([⟨it.title, PageRef.byPageno n, dest.x, dest.y, none⟩], [])) ∧
    (∀ (it : RawOutlineItem) (dest : Dest) (objid : Nat), resolvedDest it = some dest →
      dest.mode = "XYZ" → dest.pageref = PageRef.byObjid objid →
      getOutlineOne it = ([⟨it.title, PageRef.byObjid objid, dest.x, dest.y, none⟩], [])) ∧
    (∀ (it : RawOutlineItem) (dest : Dest), resolvedDest it = some dest →
      dest.mode = "XYZ" → dest.pageref = PageRef.other →
      getOutlineOne it = ([], ["Unsupported pageref in outline"])) ∧
    (∀ it : RawOutlineItem, resolvedDest it = none → getOutlineOne it = ([], [])) ∧
    (∀ (it : RawOutlineItem) (rest : List RawOutlineItem),
      getOutlines (it :: rest) =
        ((getOutlineOne it).1 ++ (getOutlines rest).1,
         (getOutlineOne it).2 ++ (getOutlines rest).2)) := by
  refine ⟨?_, ?_, ?_, ?_, ?_, ?_⟩
  · intro it dest hd hm
    simp [getOutlineOne, hd, hm]
  · intro it dest n hd hm hp
    simp [getOutlineOne, hd, hm, hp]
  · intro it dest objid hd hm hp
    simp [getOutlineOne, hd, hm, hp]
  · intro it dest hd hm hp
    simp [getOutlineOne, hd, hm, hp]
  · intro it hd
    simp [getOutlineOne, hd]
  · intro it rest
    rfl

/-- Witness for the amended claim C8, at the concrete `FitH` item. -/
theorem c8_outline_xyz_filter_wit :
    getOutlineOne itemFitH = ([], []) :=
  c8_outline_xyz_filter.1 itemFitH ⟨PageRef.byPageno 0, "FitH", 0, 0⟩ rfl (by decide)

/-! ### Claim C2 -/

/-- A highlight annotation whose single box covers the strip containing all
the characters of the C2 scenario. -/
def annC2 : Ann := ⟨"Highlight", none, none, none, [⟨0, 0, 100, 10⟩], "", none⟩

/-- Characters `A`, `B`, one line-break whitespace primitive, then `C`, `D`,
all inside `annC2`'s region. -/
def streamC2 : LTList :=
  ltlist [LTItem.char ⟨0, 0, 10, 10⟩ "A", LTItem.char ⟨10, 0, 20, 10⟩ "B",
          LTItem.anno "\n", LTItem.char ⟨20, 0, 30, 10⟩ "C", LTItem.char ⟨30, 0, 40, 10⟩ "D"]

/-- Claim C2: for a whitespace (`LTAnno`) primitive, if its text is a
newline, exactly one newline character is appended to every annotation in
`_curline` (and to no other annotation) and `_curline` is then emptied;
otherwise its text is appended to exactly the annotations in `_lasthit`
(`render`, lines 188-194).  Consequently an annotation covering characters
`AB` then `CD` separated by one line-break primitive accumulates exactly
`AB\nCD`. -/
theorem c2_whitespace_policy :
    (∀ (s : ExtState) (i : Nat) (a : Ann), s.annots[i]? = some a → i ∈ s.curline →
      (render1 s (LTItem.anno "\n")).annots[i]? = some (a.capture "\n")) ∧
    (∀ (s : ExtState) (i : Nat) (a : Ann), s.annots[i]? = some a → i ∉ s.curline →
      (render1 s (LTItem.anno "\n")).annots[i]? = some a) ∧
    (∀ s : ExtState, (render1 s (LTItem.anno "\n")).curline = []) ∧
    (∀ (t : String) (s : ExtState) (i : Nat) (a : Ann), t ≠ "\n" →
      s.annots[i]? = some a →
      (render1 s (LTItem.anno t)).annots[i]? =
        some (if i ∈ s.lasthit then a.capture t else a)) ∧
    (renderL (initPageState 0 [annC2] []) streamC2).annots.map Ann.text = ["AB\nCD"] := by
  refine ⟨?_, ?_, ?_, ?_, rfl⟩
  · intro s i a ha hi
    simp [render1, renderL, captureNewlineSt, mapIdxAnn_getElem, ha, hi]
  · intro s i a ha hi
    simp [render1, renderL, captureNewlineSt, mapIdxAnn_getElem, ha, hi]
  · intro s
    simp [render1, renderL, captureNewlineSt]
  · intro t s i a hnl ha
    simp [render1, renderL, hnl, captureTo, mapIdxAnn_getElem, ha]

/-- Witness for claim C2, at a concrete state with one annotation that is in
`_curline` and `_lasthit`. -/
theorem c2_whitespace_policy_wit :
    (render1 ⟨0, 0, [annC2], [], [0], [0]⟩ (LTItem.anno "\n")).annots[0]? =
      some (annC2.capture "\n") ∧
    (render1 ⟨0, 0, [annC2], [], [0], []⟩ (LTItem.anno "\n")).annots[0]? = some annC2 ∧
    (render1 ⟨0, 0, [annC2], [], [0], [0]⟩ (LTItem.anno " ")).annots[0]? =
      some (if 0 ∈ [0] then annC2.capture " " else annC2) :=
  ⟨c2_whitespace_policy.1 ⟨0, 0, [annC2], [], [0], [0]⟩ 0 annC2 rfl (by decide),
   c2_whitespace_policy.2.1 ⟨0, 0, [annC2], [], [0], []⟩ 0 annC2 rfl (by decide),
   c2_whitespace_policy.2.2.2.1 " " ⟨0, 0, [annC2], [], [0], [0]⟩ 0 annC2 (by decide) rfl⟩

/-! ### Claim C10 -/

/-- A highlight annotation covering the single character of the C10
scenario. -/
def annC10 : Ann := ⟨"Highlight", none, none, none, [⟨0, 0, 20, 10⟩], "", none⟩

/-- A character hit, then a line-break primitive, then an inter-word space
primitive with no intervening character. -/
def streamC10 : LTList :=
  ltlist [LTItem.char ⟨0, 0, 10, 10⟩ "A", LTItem.anno "\n", LTItem.anno " "]

/-- Claim C10: the newline flush clears only `_curline`, never `_lasthit`
(`capture_newline`, lines 156-159); hence a non-newline whitespace primitive
that immediately follows a line-break primitive is appended to exactly the
annotations matched by the last character before the break, and in the
concrete scenario the annotation accumulates `A`, the newline, and the
space. -/
theorem c10_flush_keeps_lasthit :
    (∀ s : ExtState, (render1 s (LTItem.anno "\n")).lasthit = s.lasthit) ∧
    (∀ (w : String) (s : ExtState), w ≠ "\n" →
      renderL s (ltlist [LTItem.anno "\n", LTItem.anno w]) =
        captureTo (captureNewlineSt s) s.lasthit w) ∧
    (renderL (initPageState 0 [annC10] []) streamC10).annots.map Ann.text = ["A\n "] := by
  refine ⟨fun s => rfl, ?_, rfl⟩
  intro w s hw
  simp only [ltlist, renderL, if_pos rfl, if_neg hw, if_true]
  rfl

/-- Witness for claim C10, at the concrete whitespace text `" "`. -/
theorem c10_flush_keeps_lasthit_wit :
    renderL (initPageState 0 [annC10] []) (ltlist [LTItem.anno "\n", LTItem.anno " "]) =
      captureTo (captureNewlineSt (initPageState 0 [annC10] [])) [] " " :=
  c10_flush_keeps_lasthit.2.1 " " (initPageState 0 [annC10] []) (by decide)

/-! ### Claim C3 -/

/-- Claim C3: a text-line boundary increments the page sequence counter and
stamps the new value onto exactly those annotations whose start `Pos` exists
(i.e. that have already received a character capture, the only operation
that assigns a start `Pos` — whitespace primitives never do) and is still
unresolved; an already-stamped start `Pos` keeps its value through any
further rendering, so the sequence number is fixed at first contact
(`update_pageseq`, lines 132-142). -/
theorem c3_line_boundary_stamp :
    (∀ s : ExtState, (updatePageseqSt s).pageseq = s.pageseq + 1) ∧
    (∀ (s : ExtState) (i : Nat) (a : Ann) (p : Pos),
      s.annots[i]? = some a → a.startpos = some p → p.seq = none →
      (updatePageseqSt s).annots[i]? =
        some { a with startpos := some { p with seq := some (s.pageseq + 1) } }) ∧
    (∀ (s : ExtState) (i : Nat) (a : Ann) (p : Pos) (v : Nat),
      s.annots[i]? = some a → a.startpos = some p → p.seq = some v →
      (updatePageseqSt s).annots[i]? = some a) ∧
    (∀ (s : ExtState) (i : Nat) (a : Ann),
      s.annots[i]? = some a → a.startpos = none →
      (updatePageseqSt s).annots[i]? = some a) ∧
    (∀ (s : ExtState) (t : String) (i : Nat) (a : Ann), s.annots[i]? = some a →
      ∃ a', (render1 s (LTItem.anno t)).annots[i]? = some a' ∧ a'.startpos = a.startpos) ∧
    (∀ (s : ExtState) (l : LTList) (i : Nat) (a : Ann) (p : Pos) (v : Nat),
      s.annots[i]? = some a → a.startpos = some p → p.seq = some v →
      ∃ a' p', (renderL s l).annots[i]? = some a' ∧ a'.startpos = some p' ∧
        p'.seq = some v) := by
  refine ⟨fun s => rfl, ?_, ?_, ?_, ?_, ?_⟩
  · intro s i a p ha hp hseq
    simp [updatePageseqSt, List.getElem?_map, ha, hp, Pos.updatePageseq, hseq]
  · intro s i a p v ha hp hseq
    simp only [updatePageseqSt, List.getElem?_map, ha, Option.map_some']
    simp only [hp, Pos.updatePageseq, hseq]
    rw [← hp]
  · intro s i a ha hp
    simp only [updatePageseqSt, List.getElem?_map, ha, Option.map_some']
    simp [hp]
  · intro s t i a ha
    by_cases hnl : t = "\n"
    · subst hnl
      by_cases hi : i ∈ s.curline
      · exact ⟨a.capture "\n",
          by simp [render1, renderL, captureNewlineSt, mapIdxAnn_getElem, ha, hi],
          by simp [Ann.capture]⟩
      · exact ⟨a,
          by simp [render1, renderL, captureNewlineSt, mapIdxAnn_getElem, ha, hi], rfl⟩
    · by_cases hi : i ∈ s.lasthit
      · exact ⟨a.capture t,
          by simp [render1, renderL, hnl, captureTo, mapIdxAnn_getElem, ha, hi],
          by simp [Ann.capture]⟩
      · exact ⟨a,
          by simp [render1, renderL, hnl, captureTo, mapIdxAnn_getElem, ha, hi], rfl⟩
  · intro s l i a p v ha hp hseq
    exact seqFixed_renderL s l ⟨a, p, ha, hp, hseq⟩

/-- An annotation with a pending (unresolved) start `Pos`, as after a first
character capture on line 1 of page 0. -/
def annC3pending : Ann :=
  ⟨"Highlight", none, none, none, [⟨0, 0, 20, 10⟩], "A", some ⟨0, none, 0, 10⟩⟩

/-- An annotation whose start `Pos` is already stamped with sequence 1. -/
def annC3fixed : Ann :=
  ⟨"Highlight", none, none, none, [⟨0, 0, 20, 10⟩], "A", some ⟨0, some 1, 0, 10⟩⟩

/-- Witness for claim C3: at a boundary reached with counter 1, the pending
annotation is stamped with 2, the already-stamped one keeps its value 1 even
through a further boundary. -/
theorem c3_line_boundary_stamp_wit :
    (updatePageseqSt ⟨0, 1, [annC3pending, annC3fixed], [], [], []⟩).annots[0]? =
      some { annC3pending with startpos := some ⟨0, some 2, 0, 10⟩ } ∧
    (updatePageseqSt ⟨0, 1, [annC3pending, annC3fixed], [], [], []⟩).annots[1]? =
      some annC3fixed ∧
    (∃ a' p',
      (renderL ⟨0, 1, [annC3pending, annC3fixed], [], [], []⟩
        (ltlist [LTItem.textline LTList.nil])).annots[1]? = some a' ∧
      a'.startpos = some p' ∧ p'.seq = some 1) :=
  ⟨c3_line_boundary_stamp.2.1 ⟨0, 1, [annC3pending, annC3fixed], [], [], []⟩ 0
      annC3pending ⟨0, none, 0, 10⟩ rfl rfl rfl,
   c3_line_boundary_stamp.2.2.1 ⟨0, 1, [annC3pending, annC3fixed], [], [], []⟩ 1
      annC3fixed ⟨0, some 1, 0, 10⟩ 1 rfl rfl rfl,
   c3_line_boundary_stamp.2.2.2.2.2 ⟨0, 1, [annC3pending, annC3fixed], [], [], []⟩
      (ltlist [LTItem.textline LTList.nil]) 1 annC3fixed ⟨0, some 1, 0, 10⟩ 1 rfl rfl rfl⟩

/-! ### Claim C4 -/

/-- A sticky-note annotation with no geometric region at all. -/
def annC4 : Ann := ⟨"Text", none, none, some "a note", [], "", none⟩

/-- A busy stream: characters, whitespace, a text line, and a text box, all
of which would hit a nonempty region at the origin. -/
def streamC4 : LTList :=
  ltlist [LTItem.textline (ltlist [LTItem.char ⟨0, 0, 10, 10⟩ "A", LTItem.anno " ",
            LTItem.char ⟨10, 0, 20, 10⟩ "B"]),
          LTItem.anno "\n",
          LTItem.textbox ⟨0, 0, 20, 10⟩ (ltlist [LTItem.char ⟨0, 0, 10, 10⟩ "C"])]

/-- Claim C4: an annotation whose `BoxCollection` is empty is never included
in any hit set by `testboxes` (the `a.boxes and ...` guard, line 147), and
therefore its accumulated captured text stays empty through any primitive
stream rendered from a fresh page state. -/
theorem c4_empty_boxes_no_text :
    (∀ (annots : List Ann) (b : Box) (i : Nat) (a : Ann),
      annots[i]? = some a → a.boxes = [] → i ∉ hitIndices annots b) ∧
    (∀ (pageIdx : Nat) (anns : List Ann) (outls : List Outline) (l : LTList)
      (i : Nat) (a : Ann), anns[i]? = some a → a.boxes = [] → a.text = "" →
      ∃ a', (receiveLayout (initPageState pageIdx anns outls) l).annots[i]? = some a' ∧
        a'.text = "") := by
  constructor
  · exact fun annots b i a ha hb => not_mem_hitIndices_of_no_boxes annots b i a ha hb
  · intro pageIdx anns outls l i a ha hb ht
    have h0 : Untouched i "" (initPageState pageIdx anns outls) :=
      ⟨⟨a, ha, ht, hb⟩, by simp [initPageState], by simp [initPageState]⟩
    have h1 : Untouched i ""
        { initPageState pageIdx anns outls with lasthit := [], curline := [] } := h0
    obtain ⟨⟨a', ha', ht', _⟩, -, -⟩ := untouched_renderL _ l h1
    exact ⟨a', ha', ht'⟩

/-- Witness for claim C4: the boxless sticky note captures nothing from the
busy stream, while a sibling annotation with a region does capture text. -/
theorem c4_empty_boxes_no_text_wit :
    (0 ∉ hitIndices [annC4, annC2] ⟨0, 0, 10, 10⟩) ∧
    (∃ a', (receiveLayout (initPageState 0 [annC4, annC2] []) streamC4).annots[0]? =
      some a' ∧ a'.text = "") :=
  ⟨c4_empty_boxes_no_text.1 [annC4, annC2] ⟨0, 0, 10, 10⟩ 0 annC4 rfl rfl,
   c4_empty_boxes_no_text.2 0 [annC4, annC2] [] streamC4 0 annC4 rfl rfl rfl⟩

/-! ### Claim C6 -/

/-- An annotation whose box covers the aggregate region of the C6 text box
but none of its characters. -/
def annC6 : Ann := ⟨"Highlight", none, none, none, [⟨0, 0, 100, 100⟩], "", none⟩

/-- Children of the C6 containers: one character outside `annC6`'s region. -/
def childrenC6 : LTList := ltlist [LTItem.char ⟨200, 200, 210, 210⟩ "x"]

/-- Claim C6: at the end of a text-box container, `render` performs one final
hit-test against the container's aggregate region and then flushes the
pending line; a generic container and a text line only recurse (plus the
sequence bump for the line), with no final hit-test or flush (lines
167-176).  Concretely, an annotation covering a text box's aggregate region
but none of its characters still receives the trailing newline, while the
same stream inside a generic container leaves it empty. -/
theorem c6_textbox_end_flush :
    (∀ (s : ExtState) (b : Box) (cs : LTList),
      render1 s (LTItem.textbox b cs) = captureNewlineSt (testboxesSt (renderL s cs) b)) ∧
    (∀ (s : ExtState) (cs : LTList),
      render1 s (LTItem.container cs) = renderL s cs) ∧
    (∀ (s : ExtState) (cs : LTList),
      render1 s (LTItem.textline cs) = renderL (updatePageseqSt s) cs) ∧
    (renderL (initPageState 0 [annC6] [])
      (ltlist [LTItem.textbox ⟨0, 0, 50, 50⟩ childrenC6])).annots.map Ann.text = ["\n"] ∧
    (renderL (initPageState 0 [annC6] [])
      (ltlist [LTItem.container childrenC6])).annots.map Ann.text = [""] :=
  ⟨fun _ _ _ => rfl, fun _ _ => rfl, fun _ _ => rfl, rfl, rfl⟩

/-! ### Claim C9 -/

/-- Claim C9: the page sequence counter is zero when a page's processing
starts (`start_page`, lines 122-124) and, over any layout stream, its final
value is the initial value plus exactly the number of text-line boundary
items in the stream — so it is incremented once per text-line boundary and
by no other primitive kind. -/
theorem c9_pageseq_per_line :
    (∀ (pageIdx : Nat) (anns : List Ann) (outls : List Outline),
      (initPageState pageIdx anns outls).pageseq = 0) ∧
    (∀ (s : ExtState) (l : LTList), (renderL s l).pageseq = s.pageseq + countLines l) :=
  ⟨fun _ _ _ => rfl, renderL_pageseq⟩

end PdfAnnots
